import Mathlib

/-!
Verification development for the cgroup v2 management core
(`src/linux/cgroups2.hpp`).

The repository ships the public header (declarations and doc comments) and a
test file; the implementation translation unit is not part of the source
tree.  Every operation below is therefore modelled from the specification's
description of its behaviour, over an explicit kernel-state record, and the
claims are settled against these models.
-/

namespace cgroups2

/-- Modelled from the spec: the conceptual error kinds of §7 (the source's
`Try<T>` carries untyped error messages; the spec enumerates the categories). -/
inductive CgError where
  | Unsupported
  | AlreadyMounted
  | NotMounted
  | MountedElsewhere
  | AlreadyExists
  | DoesNotExist
  | MissingAncestor
  | ControllerUnavailable
  | Busy
  | ParseError
deriving DecidableEq, Repr

/-- Little-endian base-10 digits of `n`, with explicit fuel so the
recursion is structural (the fuel `n` itself always suffices). -/
def digitsLEAux : Nat → Nat → List Nat
  | _, 0 => []
  | 0, _ + 1 => []
  | fuel + 1, n + 1 => (n + 1) % 10 :: digitsLEAux fuel ((n + 1) / 10)

/-- Little-endian base-10 digits of `n` (empty for zero). -/
def digitsLE (n : Nat) : List Nat :=
  digitsLEAux n n

/-- Value of a little-endian base-10 digit list. -/
def valLE : List Nat → Nat
  | [] => 0
  | d :: ds => d + 10 * valLE ds

/-- The ASCII character of a decimal digit. -/
def digitChar (d : Nat) : Char :=
  Char.ofNat (48 + d)

/-- The decimal digit denoted by an ASCII character. -/
def charVal (c : Char) : Nat :=
  c.toNat - 48

/-- Decimal rendering of a natural number. -/
def natRepr (n : Nat) : String :=
  if n = 0 then "0" else ⟨((digitsLE n).map digitChar).reverse⟩

/-- Parse a string as a base-10 natural number: it must be nonempty and
consist solely of decimal digits (so no sign, in particular no negatives). -/
def parseNat? (s : String) : Option Nat :=
  if s.data ≠ [] ∧ s.data.all Char.isDigit then
    some (valLE ((s.data.map charVal).reverse))
  else
    none

/-- Root cgroup in the cgroup v2 hierarchy; its relative path is the empty
string (header: `ROOT_CGROUP = ""`). -/
def ROOT_CGROUP : String :=
  ""

/-- Canonical mount point of the cgroup2 filesystem (header doc comments:
`/sys/fs/cgroup`). -/
def MOUNT_POINT : String :=
  "/sys/fs/cgroup"

/-- Split a character list at every slash. -/
def splitSlash : List Char → List (List Char)
  | [] => [[]]
  | c :: cs =>
    if c = '/' then
      [] :: splitSlash cs
    else
      match splitSlash cs with
      | [] => [[c]]
      | g :: gs => (c :: g) :: gs

/-- Modelled from the spec: a cgroup path is "a relative slash-separated
identifier naming a node in the hierarchy; the empty string denotes the
root node" — parsed here into its segment list (root = `[]`). -/
def segments (s : String) : List String :=
  if s = "" then [] else (splitSlash s.data).map (fun g => ⟨g⟩)

/-- Modelled from the spec: the kernel-visible cgroup v2 state the
operations read and write (the kernel is the sole source of truth; nothing
is cached in-process).  `nodes` lists the existing non-root nodes in
creation order; `active` is each node's active-controllers file
(`cgroup.subtree_control`); `hostControllers` is the host's global
controller set; `memCurrent` is each node's `memory.current` accounting. -/
structure SysState where
  kernelSupport : Bool
  mountPoint : Option String
  nodes : List (List String)
  active : List String → List String
  hostControllers : List String
  memCurrent : List String → Nat

/-- A node exists: the root always exists (it is the mount point itself);
any other node exists iff it has been materialized in the hierarchy. -/
def nodeExists (st : SysState) (p : List String) : Prop :=
  p = [] ∨ p ∈ st.nodes

instance (st : SysState) (p : List String) : Decidable (nodeExists st p) :=
  inferInstanceAs (Decidable (_ ∨ _))

/-- The nonempty prefixes of a path, in root-to-leaf order, ending with the
path itself. -/
def ancestorChain : List String → List (List String)
  | [] => []
  | a :: rest => [a] :: (ancestorChain rest).map (List.cons a)

/-- The proper ancestors of a path: its nonempty prefixes other than the
path itself, in root-to-leaf order. -/
def ancestors (p : List String) : List (List String) :=
  (ancestorChain p).dropLast

/-- Record freshly created nodes, in creation order; a newly created node's
active-controllers file starts out empty. -/
def addNodes (st : SysState) (made : List (List String)) : SysState :=
  { st with
    nodes := st.nodes ++ made
    active := fun q => if q ∈ made then [] else st.active q }

/-- Modelled from the spec: `cgroups2::create` (implementation not in the
source tree) — fails with AlreadyExists if the cgroup exists; without
`recursive` fails with MissingAncestor if some ancestor is absent, and
otherwise creates the node; with `recursive` creates every missing
ancestor in root-to-leaf order before the node itself. -/
def create (st : SysState) (cgroup : String) (recursive : Bool) :
    Except CgError Unit × SysState :=
  if nodeExists st (segments cgroup) then
    (.error .AlreadyExists, st)
  else if recursive then
    (.ok (), addNodes st ((ancestorChain (segments cgroup)).filter
      (fun q => !decide (nodeExists st q))))
  else if (ancestors (segments cgroup)).all (fun q => decide (nodeExists st q)) then
    (.ok (), addNodes st [segments cgroup])
  else
    (.error .MissingAncestor, st)

/-- Modelled from the spec: `cgroups2::destroy` (implementation not in the
source tree) — recursively destroys the cgroup and every descendant;
fails with DoesNotExist if the cgroup does not exist.  The root cgroup is
the mount point itself, which the kernel refuses to remove (the
kernel-enforced Busy error of §7). -/
def destroy (st : SysState) (cgroup : String) : Except CgError Unit × SysState :=
  if segments cgroup = [] then
    (.error .Busy, st)
  else if nodeExists st (segments cgroup) then
    (.ok (), { st with
      nodes := st.nodes.filter (fun q => !decide (segments cgroup <+: q)) })
  else
    (.error .DoesNotExist, st)

/-- `cgroups2::enabled`: whether the running kernel supports cgroup v2 at
all (independent of mount state). -/
def enabled (st : SysState) : Bool :=
  st.kernelSupport

/-- Modelled from the spec: `cgroups2::mount` (implementation not in the
source tree) — mounts cgroup2 at the canonical mount point; errors if the
cgroup2 filesystem is already mounted. -/
def mount (st : SysState) : Except CgError Unit × SysState :=
  match st.mountPoint with
  | some _ => (.error .AlreadyMounted, st)
  | none => (.ok (), { st with mountPoint := some MOUNT_POINT })

/-- Modelled from the spec: `cgroups2::mounted` (implementation not in the
source tree) — true if cgroup2 is mounted exactly at the canonical path,
false if it is not mounted at all, and an error if it is mounted at an
unexpected location. -/
def mounted (st : SysState) : Except CgError Bool :=
  match st.mountPoint with
  | none => .ok false
  | some path => if path = MOUNT_POINT then .ok true else .error .MountedElsewhere

namespace subsystems

/-- Modelled from the spec: `subsystems::available` (implementation not in
the source tree) — the set of controllers the node may activate, read from
its available-controllers file (`cgroup.controllers`).  In cgroup v2 a
non-root node's file lists the controllers its parent currently
distributes, and the root's file lists the host's global set.  Errors if
the node does not exist. -/
def available (st : SysState) (cgroup : String) : Except CgError (List String) :=
  if nodeExists st (segments cgroup) then
    match segments cgroup with
    | [] => .ok st.hostControllers
    | s :: ss => .ok (st.active (s :: ss).dropLast)
  else
    .error .DoesNotExist

/-- Modelled from the spec: the boolean overload of `subsystems::available`
(implementation not in the source tree) — true only if every requested
name is in the node's available set. -/
def availableAll (st : SysState) (cgroup : String) (subs : List String) :
    Except CgError Bool :=
  (available st cgroup).map (fun av => subs.all (fun s => decide (s ∈ av)))

/-- Modelled from the spec: `subsystems::enable` (implementation not in the
source tree) — sets the node's active-controllers file to exactly the
requested set, disabling every controller not listed; errors if a
requested subsystem is not available to the node. -/
def enable (st : SysState) (cgroup : String) (subs : List String) :
    Except CgError Unit × SysState :=
  match available st cgroup with
  | .error e => (.error e, st)
  | .ok av =>
    if subs.all (fun s => decide (s ∈ av)) then
      (.ok (), { st with
        active := fun q => if q = segments cgroup then subs else st.active q })
    else
      (.error .ControllerUnavailable, st)

/-- Modelled from the spec: `subsystems::enabled` (implementation not in
the source tree) — true only if every requested controller is currently in
the node's active-controllers file. -/
def enabled (st : SysState) (cgroup : String) (subs : List String) :
    Except CgError Bool :=
  if nodeExists st (segments cgroup) then
    .ok (subs.all (fun s => decide (s ∈ st.active (segments cgroup))))
  else
    .error .DoesNotExist

end subsystems

/-- Modelled from the spec: `cgroups2::prepare` (implementation not in the
source tree) — fails fast if the kernel lacks cgroup v2 support; mounts
the cgroup2 filesystem only if it is not already mounted; then enables the
requested subsystems at the root cgroup (failing if any is unavailable on
the host). -/
def prepare (st : SysState) (subs : List String) : Except CgError Unit × SysState :=
  if st.kernelSupport then
    match mounted st with
    | .error e => (.error e, st)
    | .ok true => subsystems.enable st ROOT_CGROUP subs
    | .ok false =>
      match mount st with
      | (.error e, st') => (.error e, st')
      | (.ok _, st') => subsystems.enable st' ROOT_CGROUP subs
  else
    (.error .Unsupported, st)

namespace memory

/-- Memory usage limit: a snapshot of a "memory.max"-style value.
`bytes` is `none` when the limit is "unlimited" (mirrors the header's
`Option<Bytes> bytes` field). -/
structure Limit where
  bytes : Option Nat
deriving DecidableEq, Repr

/-- Limit representing no limit AKA "unlimited" (header: `Limit::max()`). -/
def Limit.max : Limit :=
  ⟨none⟩

/-- Modelled from the spec: the serialized form of a limit (the
implementation of `Limit`'s stringification is not in the source tree) —
"serializes to the literal token for unlimited, or a non-negative integer
byte count otherwise". -/
def Limit.toString (l : Limit) : String :=
  match l.bytes with
  | none => "max"
  | some b => natRepr b

/-- Modelled from the spec: `Limit::parse` (implementation not in the source
tree) — "parsing accepts exactly one of these two textual forms and fails
otherwise": the literal token `max`, or a non-negative integer byte count. -/
def Limit.parse (value : String) : Except CgError Limit :=
  if value = "max" then
    .ok Limit.max
  else
    match parseNat? value with
    | some n => .ok ⟨some n⟩
    | none => .error .ParseError

/-- The textual forms `Limit.parse` accepts besides the literal unlimited
token: a nonempty string of decimal digits (a non-negative byte count). -/
def IsByteCountText (s : String) : Prop :=
  s.data ≠ [] ∧ ∀ c ∈ s.data, c.isDigit = true

instance (s : String) : Decidable (IsByteCountText s) :=
  inferInstanceAs (Decidable (_ ∧ _))

/-- Modelled from the spec: `memory::usage` (implementation not in the
source tree) — reads the node's `memory.current` accounting (bytes in use
by the node and its descendants).  The kernel exposes no such file for the
root cgroup, so reading it fails; reading a nonexistent node's file fails
too. -/
def usage (st : SysState) (cgroup : String) : Except CgError Nat :=
  if segments cgroup = [] then
    .error .DoesNotExist
  else if nodeExists st (segments cgroup) then
    .ok (st.memCurrent (segments cgroup))
  else
    .error .DoesNotExist

end memory

/-- A small concrete host state used to exercise the operations: cgroup v2
supported, mounted at the canonical path, no nodes created yet, and the
memory controller both available on the host and distributed by the root. -/
def exampleState : SysState where
  kernelSupport := true
  mountPoint := some MOUNT_POINT
  nodes := []
  active := fun _ => ["memory"]
  hostControllers := ["memory"]
  memCurrent := fun _ => 0

/-- The example state after materializing the node `"a"`. -/
def exampleNode : SysState :=
  (create exampleState "a" false).2

end cgroups2

namespace cgroups2

theorem valLE_digitsLEAux (fuel n : Nat) (h : n ≤ fuel) :
    valLE (digitsLEAux fuel n) = n := by
  induction fuel generalizing n with
  | zero =>
    interval_cases n
    rfl
  | succ f ih =>
    match n with
    | 0 => rfl
    | m + 1 =>
      have hdiv : (m + 1) / 10 ≤ f := by
        have h1 : (m + 1) / 10 < m + 1 := Nat.div_lt_self (Nat.succ_pos m) (by omega)
        omega
      simp only [digitsLEAux, valLE, ih _ hdiv]
      omega

theorem valLE_digitsLE (n : Nat) : valLE (digitsLE n) = n :=
  valLE_digitsLEAux n n (Nat.le_refl n)

theorem digitsLEAux_lt (fuel n : Nat) : ∀ d ∈ digitsLEAux fuel n, d < 10 := by
  induction fuel generalizing n with
  | zero =>
    match n with
    | 0 => intro d hd; simp [digitsLEAux] at hd
    | m + 1 => intro d hd; simp [digitsLEAux] at hd
  | succ f ih =>
    match n with
    | 0 => intro d hd; simp [digitsLEAux] at hd
    | m + 1 =>
      intro d hd
      simp only [digitsLEAux, List.mem_cons] at hd
      rcases hd with h | h
      · subst h; exact Nat.mod_lt _ (by omega)
      · exact ih _ d h

theorem digitsLEAux_ne_nil (fuel n : Nat) (hn : 0 < n) (hf : 0 < fuel) :
    digitsLEAux fuel n ≠ [] := by
  match fuel, n with
  | f + 1, m + 1 => simp [digitsLEAux]

theorem digitChar_isDigit {d : Nat} (h : d < 10) : (digitChar d).isDigit = true := by
  interval_cases d <;> decide

theorem charVal_digitChar {d : Nat} (h : d < 10) : charVal (digitChar d) = d := by
  interval_cases d <;> decide

theorem natRepr_all_digits (n : Nat) : ∀ c ∈ (natRepr n).data, c.isDigit = true := by
  unfold natRepr
  by_cases h : n = 0
  · simp only [h, if_pos rfl]
    decide
  · simp only [if_neg h]
    intro c hc
    simp only [List.mem_reverse, List.mem_map] at hc
    obtain ⟨d, hd, rfl⟩ := hc
    exact digitChar_isDigit (digitsLEAux_lt n n d hd)

theorem natRepr_ne_max (n : Nat) : natRepr n ≠ "max" := by
  intro h
  have hm : ('m' : Char) ∈ (natRepr n).data := by
    rw [h]
    simp [String.data]
  have := natRepr_all_digits n 'm' hm
  simp at this

theorem parseNat?_natRepr (n : Nat) : parseNat? (natRepr n) = some n := by
  by_cases h : n = 0
  · subst h; rfl
  · have hne : digitsLE n ≠ [] := digitsLEAux_ne_nil n n (Nat.pos_of_ne_zero h) (Nat.pos_of_ne_zero h)
    have hdata : (natRepr n).data = ((digitsLE n).map digitChar).reverse := by
      simp [natRepr, h]
    unfold parseNat?
    rw [hdata]
    rw [if_pos]
    · congr 1
      rw [List.map_reverse, List.reverse_reverse, List.map_map]
      have hmap : (digitsLE n).map (charVal ∘ digitChar) = (digitsLE n).map id :=
        List.map_congr_left (fun d hd => charVal_digitChar (digitsLEAux_lt n n d hd))
      rw [hmap, List.map_id, valLE_digitsLE]
    · constructor
      · simp [hne]
      · rw [List.all_eq_true]
        intro c hc
        simp only [List.mem_reverse, List.mem_map] at hc
        obtain ⟨d, hd, rfl⟩ := hc
        exact digitChar_isDigit (digitsLEAux_lt n n d hd)

theorem parseNat?_none_iff (s : String) :
    parseNat? s = none ↔ ¬ memory.IsByteCountText s := by
  have hiff : (s.data ≠ [] ∧ s.data.all Char.isDigit = true) ↔ memory.IsByteCountText s := by
    unfold memory.IsByteCountText
    rw [List.all_eq_true]
  unfold parseNat?
  split
  case isTrue h =>
    simp only [reduceCtorEq, false_iff, not_not]
    exact hiff.mp h
  case isFalse h =>
    simp only [true_iff]
    exact fun hb => h (hiff.mpr hb)

theorem parseNat?_some_of (s : String) (h : memory.IsByteCountText s) :
    ∃ n, parseNat? s = some n := by
  rcases hn : parseNat? s with _ | n
  · exact absurd h ((parseNat?_none_iff s).mp hn)
  · exact ⟨n, rfl⟩

theorem mem_ancestorChain_pre :
    ∀ p q : List String, q ∈ ancestorChain p → q <+: p ∧ q ≠ []
  | [], q, hq => absurd hq (by simp [ancestorChain])
  | a :: rest, q, hq => by
    simp only [ancestorChain, List.mem_cons, List.mem_map] at hq
    rcases hq with rfl | ⟨r, hr, rfl⟩
    · exact ⟨⟨rest, rfl⟩, by simp⟩
    · obtain ⟨h1, -⟩ := mem_ancestorChain_pre rest r hr
      exact ⟨List.cons_prefix_cons.mpr ⟨rfl, h1⟩, by simp⟩

theorem ancestorChain_pairwise :
    ∀ p : List String, (ancestorChain p).Pairwise (· <+: ·)
  | [] => List.Pairwise.nil
  | a :: rest => by
    simp only [ancestorChain]
    refine List.Pairwise.cons ?_ ?_
    · intro q hq
      simp only [List.mem_map] at hq
      obtain ⟨r, -, rfl⟩ := hq
      exact ⟨r, rfl⟩
    · rw [List.pairwise_map]
      exact (ancestorChain_pairwise rest).imp
        (fun h => List.cons_prefix_cons.mpr ⟨rfl, h⟩)

theorem ancestorChain_decomp :
    ∀ p : List String, p ≠ [] → ancestorChain p = ancestors p ++ [p]
  | [a], _ => rfl
  | a :: b :: rest, _ => by
    have ih := ancestorChain_decomp (b :: rest) (by simp)
    show ancestorChain (a :: b :: rest)
      = (ancestorChain (a :: b :: rest)).dropLast ++ [a :: b :: rest]
    have h1 : ancestorChain (a :: b :: rest)
        = ([a] :: ((ancestorChain (b :: rest)).dropLast.map (List.cons a)))
          ++ [a :: b :: rest] := by
      show [a] :: (ancestorChain (b :: rest)).map (List.cons a) = _
      rw [show (ancestorChain (b :: rest)).dropLast = ancestors (b :: rest) from rfl]
      rw [ih, List.map_append]
      rfl
    rw [h1, List.dropLast_concat]

theorem self_mem_ancestorChain (p : List String) (hp : p ≠ []) :
    p ∈ ancestorChain p := by
  rw [ancestorChain_decomp p hp]
  exact List.mem_append_right _ (List.mem_singleton_self _)

theorem nodeExists_addNodes (st : SysState) (made : List (List String))
    (q : List String) :
    nodeExists (addNodes st made) q ↔ nodeExists st q ∨ q ∈ made := by
  simp [nodeExists, addNodes, List.mem_append, or_assoc]

theorem create_exists_fail (st : SysState) (c : String) (r : Bool)
    (h : nodeExists st (segments c)) :
    create st c r = (.error .AlreadyExists, st) := by
  unfold create
  rw [if_pos h]

theorem create_ok_exists (st : SysState) (c : String) (r : Bool)
    (hok : (create st c r).1 = .ok ()) :
    ∃ made, (create st c r).2 = addNodes st made ∧ segments c ∈ made := by
  unfold create at hok ⊢
  by_cases h1 : nodeExists st (segments c)
  · rw [if_pos h1] at hok
    exact absurd hok (by simp)
  · rw [if_neg h1] at hok ⊢
    by_cases hr : r = true
    · rw [if_pos hr] at hok ⊢
      refine ⟨_, rfl, ?_⟩
      rw [List.mem_filter]
      refine ⟨self_mem_ancestorChain _ (fun h => h1 (Or.inl h)), ?_⟩
      simp only [Bool.not_eq_eq_eq_not, Bool.not_true, decide_eq_false_iff_not]
      exact h1
    · rw [if_neg hr] at hok ⊢
      by_cases h2 : (ancestors (segments c)).all (fun q => decide (nodeExists st q)) = true
      · rw [if_pos h2] at hok ⊢
        exact ⟨[segments c], rfl, List.mem_singleton_self _⟩
      · rw [if_neg h2] at hok
        exact absurd hok (by simp)

theorem destroy_missing_fail (st : SysState) (c : String)
    (h : ¬ nodeExists st (segments c)) :
    destroy st c = (.error .DoesNotExist, st) := by
  unfold destroy
  rw [if_neg (fun he => h (Or.inl he)), if_neg h]

theorem destroy_ok_spec (st : SysState) (c : String)
    (hok : (destroy st c).1 = .ok ()) :
    segments c ≠ [] ∧
    (destroy st c).2.nodes
      = st.nodes.filter (fun q => !decide (segments c <+: q)) := by
  unfold destroy at hok ⊢
  by_cases h0 : segments c = []
  · rw [if_pos h0] at hok
    exact absurd hok (by simp)
  · rw [if_neg h0] at hok ⊢
    by_cases h1 : nodeExists st (segments c)
    · rw [if_pos h1] at hok ⊢
      exact ⟨h0, rfl⟩
    · rw [if_neg h1] at hok
      exact absurd hok (by simp)

/-- C1: for every valid (non-negative) byte count `b`, parsing the
serialized form of the limit holding `b` yields the limit holding `b`, and
parsing the literal unlimited token `"max"` yields the canonical unlimited
value `Limit.max`. -/
theorem C1_limit_parse_roundtrip (b : Nat) :
    memory.Limit.parse (memory.Limit.toString ⟨some b⟩) = .ok ⟨some b⟩ ∧
    memory.Limit.parse "max" = .ok memory.Limit.max := by
  refine ⟨?_, rfl⟩
  show memory.Limit.parse (natRepr b) = .ok ⟨some b⟩
  unfold memory.Limit.parse
  rw [if_neg (natRepr_ne_max b), parseNat?_natRepr]

/-- C2: `Limit.parse` succeeds on exactly two textual forms — the literal
unlimited token `"max"` and a non-negative integer byte count (a nonempty
all-digit string) — and returns an error on every other input, including
negative numbers, the empty string, and non-numeric text. -/
theorem C2_limit_parse_domain (s : String) :
    ((∃ l, memory.Limit.parse s = .ok l) ↔
      s = "max" ∨ memory.IsByteCountText s) ∧
    (¬(s = "max" ∨ memory.IsByteCountText s) →
      memory.Limit.parse s = .error .ParseError) := by
  by_cases hmax : s = "max"
  · subst hmax
    exact ⟨by simp [memory.Limit.parse], fun h => absurd (Or.inl rfl) h⟩
  · by_cases hbc : memory.IsByteCountText s
    · obtain ⟨n, hn⟩ := parseNat?_some_of s hbc
      have hok : memory.Limit.parse s = .ok ⟨some n⟩ := by
        unfold memory.Limit.parse
        rw [if_neg hmax, hn]
      exact ⟨⟨fun _ => Or.inr hbc, fun _ => ⟨⟨some n⟩, hok⟩⟩,
        fun h => absurd (Or.inr hbc) h⟩
    · have herr : memory.Limit.parse s = .error .ParseError := by
        unfold memory.Limit.parse
        rw [if_neg hmax, (parseNat?_none_iff s).mpr hbc]
      refine ⟨?_, fun _ => herr⟩
      simp only [herr, reduceCtorEq, exists_false, false_iff]
      intro h
      exact h.elim hmax hbc

/-- C2 witness: concrete rejected inputs — a negative number, the empty
string, and garbage text — all fail with a parse error. -/
theorem C2_limit_parse_domain_witness :
    memory.Limit.parse "-5" = .error .ParseError ∧
    memory.Limit.parse "" = .error .ParseError ∧
    memory.Limit.parse "garbage" = .error .ParseError :=
  ⟨(C2_limit_parse_domain "-5").2 (by decide),
   (C2_limit_parse_domain "").2 (by decide),
   (C2_limit_parse_domain "garbage").2 (by decide)⟩

/-- C3: after `create(p)` succeeds, an immediately subsequent `create(p)`
fails with AlreadyExists; after `destroy(p)` succeeds, an immediately
subsequent `destroy(p)` fails with DoesNotExist. -/
theorem C3_create_destroy_repeat (st : SysState) (c : String) (r r' : Bool) :
    ((create st c r).1 = .ok () →
      create (create st c r).2 c r' = (.error .AlreadyExists, (create st c r).2)) ∧
    ((destroy st c).1 = .ok () →
      destroy (destroy st c).2 c = (.error .DoesNotExist, (destroy st c).2)) := by
  constructor
  · intro hok
    obtain ⟨made, hsnd, hmem⟩ := create_ok_exists st c r hok
    apply create_exists_fail
    rw [hsnd, nodeExists_addNodes]
    exact Or.inr hmem
  · intro hok
    obtain ⟨hne, hnodes⟩ := destroy_ok_spec st c hok
    apply destroy_missing_fail
    intro hex
    rcases hex with he | hmem
    · exact hne he
    · rw [hnodes, List.mem_filter] at hmem
      have h2 : ¬ (segments c <+: segments c) := by
        simpa using hmem.2
      exact h2 (List.prefix_refl _)

/-- C3 witness: in the concrete example state, creating `"a"` then creating
it again fails with AlreadyExists, and destroying it then destroying it
again fails with DoesNotExist. -/
theorem C3_create_destroy_repeat_witness :
    create (create exampleState "a" false).2 "a" false
      = (.error .AlreadyExists, (create exampleState "a" false).2) ∧
    destroy (destroy (create exampleState "a" false).2 "a").2 "a"
      = (.error .DoesNotExist, (destroy (create exampleState "a" false).2 "a").2) :=
  ⟨(C3_create_destroy_repeat exampleState "a" false false).1 rfl,
   (C3_create_destroy_repeat (create exampleState "a" false).2 "a" false false).2 rfl⟩

theorem create_rec_ok (st : SysState) (c : String)
    (hnp : ¬ nodeExists st (segments c)) :
    create st c true
      = (.ok (), addNodes st ((ancestorChain (segments c)).filter
          (fun q => !decide (nodeExists st q)))) := by
  unfold create
  rw [if_neg hnp, if_pos rfl]

/-- C4: for a multi-segment path with a missing ancestor, `create` without
`recursive` fails with MissingAncestor, and with `recursive = true` it
succeeds, creating every missing ancestor in root-to-leaf order (the
created list is ordered by the prefix relation and ends with the requested
node), so that afterwards every ancestor and the requested node exist. -/
theorem C4_recursive_create (st : SysState) (c : String)
    (hmiss : ∃ q ∈ ancestors (segments c), ¬ nodeExists st q)
    (hnp : ¬ nodeExists st (segments c)) :
    create st c false = (.error .MissingAncestor, st) ∧
    (create st c true).1 = .ok () ∧
    (∀ q ∈ ancestors (segments c), nodeExists (create st c true).2 q) ∧
    nodeExists (create st c true).2 (segments c) ∧
    (∃ made, (create st c true).2.nodes = st.nodes ++ made ∧
      made.Pairwise (· <+: ·) ∧
      (∀ q ∈ made, q <+: segments c) ∧
      made.getLast? = some (segments c)) := by
  have hp : segments c ≠ [] := fun h => hnp (Or.inl h)
  have hpred : (!decide (nodeExists st (segments c))) = true := by
    simp only [Bool.not_eq_eq_eq_not, Bool.not_true, decide_eq_false_iff_not]
    exact hnp
  have hrec := create_rec_ok st c hnp
  refine ⟨?_, ?_, ?_, ?_, ?_⟩
  · unfold create
    rw [if_neg hnp, if_neg (by simp : ¬ (false = true)), if_neg ?_]
    intro hall
    rw [List.all_eq_true] at hall
    obtain ⟨q, hq, hnq⟩ := hmiss
    have := hall q hq
    rw [decide_eq_true_eq] at this
    exact hnq this
  · rw [hrec]
  · intro q hq
    rw [hrec]
    rw [nodeExists_addNodes]
    by_cases hqe : nodeExists st q
    · exact Or.inl hqe
    · refine Or.inr ?_
      rw [List.mem_filter]
      refine ⟨?_, ?_⟩
      · rw [ancestorChain_decomp _ hp]
        exact List.mem_append_left _ hq
      · simp only [Bool.not_eq_eq_eq_not, Bool.not_true, decide_eq_false_iff_not]
        exact hqe
  · rw [hrec, nodeExists_addNodes]
    refine Or.inr ?_
    rw [List.mem_filter]
    exact ⟨self_mem_ancestorChain _ hp, hpred⟩
  · refine ⟨(ancestorChain (segments c)).filter (fun q => !decide (nodeExists st q)),
      ?_, ?_, ?_, ?_⟩
    · rw [hrec]
      rfl
    · exact List.Pairwise.sublist (List.filter_sublist _) (ancestorChain_pairwise _)
    · intro q hq
      rw [List.mem_filter] at hq
      exact (mem_ancestorChain_pre _ q hq.1).1
    · rw [ancestorChain_decomp _ hp, List.filter_append]
      have hsing : [segments c].filter (fun q => !decide (nodeExists st q))
          = [segments c] := by
        simp only [List.filter, hpred]
      rw [hsing, List.getLast?_concat]

/-- C4 witness: in the concrete example state (where `"a"` does not exist),
`create("a/b")` fails with MissingAncestor, while `create("a/b",
recursive=true)` succeeds and the requested node exists afterwards. -/
theorem C4_recursive_create_witness :
    create exampleState "a/b" false = (.error .MissingAncestor, exampleState) ∧
    (create exampleState "a/b" true).1 = .ok () ∧
    nodeExists (create exampleState "a/b" true).2 (segments "a/b") :=
  ⟨(C4_recursive_create exampleState "a/b" (by decide) (by decide)).1,
   (C4_recursive_create exampleState "a/b" (by decide) (by decide)).2.1,
   (C4_recursive_create exampleState "a/b" (by decide) (by decide)).2.2.2.1⟩

/-- C10: destroying a nonexistent path fails with DoesNotExist and leaves
the entire hierarchy unchanged, so a following `create` behaves exactly as
if the failed `destroy` had never run. -/
theorem C10_destroy_error_atomic (st : SysState) (c : String)
    (h : ¬ nodeExists st (segments c)) :
    destroy st c = (.error .DoesNotExist, st) ∧
    ∀ r, create (destroy st c).2 c r = create st c r := by
  have hd := destroy_missing_fail st c h
  exact ⟨hd, fun r => by rw [hd]⟩

/-- C10 witness: destroying the absent node `"ghost"` in the example state
fails with DoesNotExist, and a following create is unaffected. -/
theorem C10_destroy_error_atomic_witness :
    destroy exampleState "ghost" = (.error .DoesNotExist, exampleState) ∧
    create (destroy exampleState "ghost").2 "ghost" false
      = create exampleState "ghost" false :=
  ⟨(C10_destroy_error_atomic exampleState "ghost" (by decide)).1,
   (C10_destroy_error_atomic exampleState "ghost" (by decide)).2 false⟩

theorem available_ok_exists (st : SysState) (c : String) (av : List String)
    (h : subsystems.available st c = .ok av) :
    nodeExists st (segments c) := by
  unfold subsystems.available at h
  by_cases hex : nodeExists st (segments c)
  · exact hex
  · rw [if_neg hex] at h
    exact absurd h (by simp)

theorem enable_error_of_error (st : SysState) (c : String) (S : List String)
    (e : CgError) (havail : subsystems.available st c = .error e) :
    subsystems.enable st c S = (.error e, st) := by
  unfold subsystems.enable
  rw [havail]

theorem enable_eq_of_available (st : SysState) (c : String) (S av : List String)
    (havail : subsystems.available st c = .ok av) :
    subsystems.enable st c S =
      if S.all (fun s => decide (s ∈ av)) = true then
        (.ok (), { st with
          active := fun q => if q = segments c then S else st.active q })
      else
        (.error .ControllerUnavailable, st) := by
  unfold subsystems.enable
  rw [havail]

theorem enable_ok_spec (st : SysState) (c : String) (S : List String)
    (hok : (subsystems.enable st c S).1 = .ok ()) :
    (subsystems.enable st c S).2.active (segments c) = S ∧
    (subsystems.enable st c S).2.nodes = st.nodes ∧
    nodeExists st (segments c) := by
  cases havail : subsystems.available st c with
  | error e =>
    rw [enable_error_of_error st c S e havail] at hok
    exact absurd hok (by simp)
  | ok av =>
    rw [enable_eq_of_available st c S av havail] at hok ⊢
    by_cases hall : S.all (fun s => decide (s ∈ av)) = true
    · rw [if_pos hall]
      exact ⟨if_pos rfl, rfl, available_ok_exists st c av havail⟩
    · rw [if_neg hall] at hok
      exact absurd hok (by simp)

/-- C5: `enable` is full-replace — after a successful
`enable(cgroup, S)` the node's active-controllers set is exactly `S`, so
`enabled(cgroup, T)` reports precisely whether `T ⊆ S`; in particular it is
true for `T = {"memory"}` after `enable(cgroup, {"memory"})` and false
after `enable(cgroup, {})`. -/
theorem C5_enable_full_replace (st : SysState) (c : String) (S : List String)
    (hok : (subsystems.enable st c S).1 = .ok ()) :
    (subsystems.enable st c S).2.active (segments c) = S ∧
    ∀ T, subsystems.enabled (subsystems.enable st c S).2 c T
      = .ok (T.all (fun s => decide (s ∈ S))) := by
  obtain ⟨hactive, hnodes, hex⟩ := enable_ok_spec st c S hok
  refine ⟨hactive, fun T => ?_⟩
  have hex' : nodeExists (subsystems.enable st c S).2 (segments c) := by
    unfold nodeExists at hex ⊢
    rw [hnodes]
    exact hex
  unfold subsystems.enabled
  rw [if_pos hex', hactive]

/-- C5 witness: on the concrete node `"a"`, enabling `{"memory"}` makes
`enabled({"memory"})` report true, and enabling `{}` makes it report
false. -/
theorem C5_enable_full_replace_witness :
    subsystems.enabled (subsystems.enable exampleNode "a" ["memory"]).2 "a" ["memory"]
      = .ok true ∧
    subsystems.enabled (subsystems.enable exampleNode "a" []).2 "a" ["memory"]
      = .ok false := by
  constructor
  · rw [(C5_enable_full_replace exampleNode "a" ["memory"] rfl).2 ["memory"]]
    rfl
  · rw [(C5_enable_full_replace exampleNode "a" [] rfl).2 ["memory"]]
    rfl

/-- C6: `enable` fails with ControllerUnavailable whenever some requested
controller is missing from the node's available set, and the boolean
`available(cgroup, subsystems)` form returns true precisely when every
requested name is in the set returned by `available(cgroup)`. -/
theorem C6_enable_requires_available (st : SysState) (c : String) (S : List String) :
    (∀ av s, subsystems.available st c = .ok av → s ∈ S → s ∉ av →
      subsystems.enable st c S = (.error .ControllerUnavailable, st)) ∧
    (∀ b, subsystems.availableAll st c S = .ok b →
      (b = true ↔ ∃ av, subsystems.available st c = .ok av ∧ ∀ s ∈ S, s ∈ av)) := by
  constructor
  · intro av s havail hs hnotin
    rw [enable_eq_of_available st c S av havail, if_neg ?_]
    intro hall
    rw [List.all_eq_true] at hall
    have := hall s hs
    rw [decide_eq_true_eq] at this
    exact hnotin this
  · intro b hb
    unfold subsystems.availableAll at hb
    cases havail : subsystems.available st c with
    | error e =>
      rw [havail] at hb
      exact absurd hb (by simp [Except.map])
    | ok av =>
      rw [havail] at hb
      simp only [Except.map, Except.ok.injEq] at hb
      subst hb
      constructor
      · intro hall
        rw [List.all_eq_true] at hall
        refine ⟨av, rfl, fun s hs => ?_⟩
        have := hall s hs
        rwa [decide_eq_true_eq] at this
      · rintro ⟨av', hav', hall⟩
        injection hav' with hav'
        subst hav'
        rw [List.all_eq_true]
        intro s hs
        exact decide_eq_true (hall s hs)

/-- C6 witness: at the root of the example state (available set
`{"memory"}`), requesting `{"cpu"}` fails with ControllerUnavailable, and
the boolean availability check for `{"memory"}` is true with every
requested name in the available set. -/
theorem C6_enable_requires_available_witness :
    subsystems.enable exampleState "" ["cpu"]
      = (.error .ControllerUnavailable, exampleState) ∧
    (∃ av, subsystems.available exampleState "" = .ok av ∧
      ∀ s ∈ ["memory"], s ∈ av) :=
  ⟨(C6_enable_requires_available exampleState "" ["cpu"]).1 ["memory"] "cpu"
      rfl (by decide) (by decide),
   ((C6_enable_requires_available exampleState "" ["memory"]).2 true rfl).mp rfl⟩

/-- C7: `usage` always fails for the root cgroup (the kernel exposes no
usage file there), and succeeds with a non-negative byte value for every
existing non-root cgroup. -/
theorem C7_usage_root_vs_node (st : SysState) :
    memory.usage st ROOT_CGROUP = .error .DoesNotExist ∧
    ∀ c, segments c ≠ [] → nodeExists st (segments c) →
      ∃ n, memory.usage st c = .ok n ∧ 0 ≤ n := by
  constructor
  · rfl
  · intro c h0 hex
    refine ⟨st.memCurrent (segments c), ?_, Nat.zero_le _⟩
    unfold memory.usage
    rw [if_neg h0, if_pos hex]

/-- C7 witness: usage of the existing non-root node `"a"` in the example
state succeeds with a non-negative value. -/
theorem C7_usage_root_vs_node_witness :
    ∃ n, memory.usage exampleNode "a" = .ok n ∧ 0 ≤ n :=
  (C7_usage_root_vs_node exampleNode).2 "a" (by decide) (by decide)

theorem mounted_none (st : SysState) (h : st.mountPoint = none) :
    mounted st = .ok false := by
  unfold mounted
  rw [h]

theorem mounted_some_canonical (st : SysState) (q : String)
    (h : st.mountPoint = some q) (hq : q = MOUNT_POINT) :
    mounted st = .ok true := by
  unfold mounted
  rw [h]
  exact if_pos hq

theorem mounted_some_other (st : SysState) (q : String)
    (h : st.mountPoint = some q) (hq : q ≠ MOUNT_POINT) :
    mounted st = .error .MountedElsewhere := by
  unfold mounted
  rw [h]
  exact if_neg hq

theorem mount_none (st : SysState) (h : st.mountPoint = none) :
    mount st = (.ok (), { st with mountPoint := some MOUNT_POINT }) := by
  unfold mount
  rw [h]

theorem prepare_unsupported (st : SysState) (subs : List String)
    (h : st.kernelSupport = false) :
    prepare st subs = (.error .Unsupported, st) := by
  unfold prepare
  rw [h, if_neg (by simp)]

theorem prepare_mounted_eq (st : SysState) (subs : List String)
    (hks : st.kernelSupport = true) (hm : mounted st = .ok true) :
    prepare st subs = subsystems.enable st ROOT_CGROUP subs := by
  unfold prepare
  rw [if_pos hks, hm]

theorem prepare_unmounted_eq (st : SysState) (subs : List String)
    (hks : st.kernelSupport = true) (hmp : st.mountPoint = none) :
    prepare st subs
      = subsystems.enable { st with mountPoint := some MOUNT_POINT }
          ROOT_CGROUP subs := by
  unfold prepare
  rw [if_pos hks, mounted_none st hmp, mount_none st hmp]

theorem prepare_elsewhere (st : SysState) (subs : List String)
    (hks : st.kernelSupport = true) (q : String)
    (hmp : st.mountPoint = some q) (hq : q ≠ MOUNT_POINT) :
    prepare st subs = (.error .MountedElsewhere, st) := by
  unfold prepare
  rw [if_pos hks, mounted_some_other st q hmp hq]

theorem enable_mountPoint (st : SysState) (c : String) (S : List String) :
    (subsystems.enable st c S).2.mountPoint = st.mountPoint := by
  cases havail : subsystems.available st c with
  | error e => rw [enable_error_of_error st c S e havail]
  | ok av =>
    rw [enable_eq_of_available st c S av havail]
    by_cases hall : S.all (fun s => decide (s ∈ av)) = true
    · rw [if_pos hall]
    · rw [if_neg hall]

theorem available_root (st : SysState) :
    subsystems.available st ROOT_CGROUP = .ok st.hostControllers := by
  unfold subsystems.available
  rw [if_pos (show nodeExists st (segments ROOT_CGROUP) from Or.inl rfl)]
  rfl

theorem enabled_after_enable_self (st : SysState) (c : String) (S : List String)
    (hok : (subsystems.enable st c S).1 = .ok ()) :
    subsystems.enabled (subsystems.enable st c S).2 c S = .ok true := by
  obtain ⟨hactive, hnodes, hex⟩ := enable_ok_spec st c S hok
  have hex' : nodeExists (subsystems.enable st c S).2 (segments c) := by
    unfold nodeExists at hex ⊢
    rw [hnodes]
    exact hex
  unfold subsystems.enabled
  rw [if_pos hex', hactive]
  congr 1
  rw [List.all_eq_true]
  intro s hs
  exact decide_eq_true hs

/-- C8: `prepare` is a composite bootstrap: it fails fast with Unsupported
when the kernel lacks cgroup v2 support; it leaves an already-canonical
mount in place (mounting only when not mounted); it fails with
ControllerUnavailable when some requested controller is not on the host;
and on success cgroup2 is mounted at the canonical path and every
requested subsystem is enabled at the root cgroup. -/
theorem C8_prepare_bootstrap (st : SysState) (subs : List String) :
    (st.kernelSupport = false → prepare st subs = (.error .Unsupported, st)) ∧
    ((prepare st subs).1 = .ok () →
      mounted (prepare st subs).2 = .ok true ∧
      subsystems.enabled (prepare st subs).2 ROOT_CGROUP subs = .ok true) ∧
    (st.mountPoint = some MOUNT_POINT →
      (prepare st subs).2.mountPoint = some MOUNT_POINT) ∧
    (st.kernelSupport = true →
      (st.mountPoint = none ∨ st.mountPoint = some MOUNT_POINT) →
      (∃ s ∈ subs, s ∉ st.hostControllers) →
      (prepare st subs).1 = .error .ControllerUnavailable) := by
  refine ⟨prepare_unsupported st subs, ?_, ?_, ?_⟩
  · intro hok
    cases hksb : st.kernelSupport with
    | false =>
      rw [prepare_unsupported st subs hksb] at hok
      exact absurd hok (by simp)
    | true =>
      cases hmp : st.mountPoint with
      | none =>
        rw [prepare_unmounted_eq st subs hksb hmp] at hok ⊢
        refine ⟨?_, enabled_after_enable_self _ ROOT_CGROUP subs hok⟩
        exact mounted_some_canonical _ MOUNT_POINT
          (by rw [enable_mountPoint]) rfl
      | some q =>
        by_cases hq : q = MOUNT_POINT
        · rw [prepare_mounted_eq st subs hksb
            (mounted_some_canonical st q hmp hq)] at hok ⊢
          refine ⟨?_, enabled_after_enable_self _ ROOT_CGROUP subs hok⟩
          refine mounted_some_canonical _ MOUNT_POINT ?_ rfl
          rw [enable_mountPoint, hmp, hq]
        · rw [prepare_elsewhere st subs hksb q hmp hq] at hok
          exact absurd hok (by simp)
  · intro hmp
    cases hksb : st.kernelSupport with
    | false =>
      rw [prepare_unsupported st subs hksb]
      exact hmp
    | true =>
      rw [prepare_mounted_eq st subs hksb
        (mounted_some_canonical st MOUNT_POINT hmp rfl)]
      rw [enable_mountPoint]
      exact hmp
  · intro hks hmp hbad
    have hnall : ¬ (subs.all (fun s => decide (s ∈ st.hostControllers)) = true) := by
      intro hall
      rw [List.all_eq_true] at hall
      obtain ⟨s, hs, hnotin⟩ := hbad
      have := hall s hs
      rw [decide_eq_true_eq] at this
      exact hnotin this
    rcases hmp with hmp | hmp
    · rw [prepare_unmounted_eq st subs hks hmp]
      rw [enable_eq_of_available _ ROOT_CGROUP subs _ (available_root _)]
      rw [if_neg hnall]
    · rw [prepare_mounted_eq st subs hks
        (mounted_some_canonical st MOUNT_POINT hmp rfl)]
      rw [enable_eq_of_available _ ROOT_CGROUP subs _ (available_root _)]
      rw [if_neg hnall]

/-- C8 witness: in concrete states, prepare fails with Unsupported when the
kernel lacks support; succeeds in the example state with cgroup2 mounted
canonically and memory enabled at the root; and fails with
ControllerUnavailable for a controller the host does not offer. -/
theorem C8_prepare_bootstrap_witness :
    prepare { exampleState with kernelSupport := false } ["memory"]
      = (.error .Unsupported, { exampleState with kernelSupport := false }) ∧
    (mounted (prepare exampleState ["memory"]).2 = .ok true ∧
      subsystems.enabled (prepare exampleState ["memory"]).2 ROOT_CGROUP ["memory"]
        = .ok true) ∧
    (prepare exampleState ["cpu"]).1 = .error .ControllerUnavailable :=
  ⟨(C8_prepare_bootstrap { exampleState with kernelSupport := false } ["memory"]).1 rfl,
   (C8_prepare_bootstrap exampleState ["memory"]).2.1 rfl,
   (C8_prepare_bootstrap exampleState ["cpu"]).2.2.2 rfl (Or.inr rfl) (by decide)⟩

/-- C9: `mounted` has a three-way outcome: it returns true exactly when
cgroup2 is mounted at the canonical path, false exactly when cgroup2 is
not mounted anywhere, and a distinct MountedElsewhere error exactly when
cgroup2 is mounted at a different path. -/
theorem C9_mounted_threeway (st : SysState) :
    (mounted st = .ok true ↔ st.mountPoint = some MOUNT_POINT) ∧
    (mounted st = .ok false ↔ st.mountPoint = none) ∧
    (mounted st = .error .MountedElsewhere ↔
      ∃ q, st.mountPoint = some q ∧ q ≠ MOUNT_POINT) := by
  cases hmp : st.mountPoint with
  | none =>
    rw [mounted_none st hmp]
    simp
  | some q =>
    by_cases hq : q = MOUNT_POINT
    · subst hq
      rw [mounted_some_canonical st MOUNT_POINT hmp rfl]
      simp
    · rw [mounted_some_other st q hmp hq]
      simp [hq]

/-- C9 witness: the three outcomes at concrete mount states — mounted at
the canonical path, not mounted, and mounted elsewhere. -/
theorem C9_mounted_threeway_witness :
    mounted exampleState = .ok true ∧
    mounted { exampleState with mountPoint := none } = .ok false ∧
    mounted { exampleState with mountPoint := some "/mnt/cg" }
      = .error .MountedElsewhere :=
  ⟨(C9_mounted_threeway exampleState).1.mpr rfl,
   (C9_mounted_threeway { exampleState with mountPoint := none }).2.1.mpr rfl,
   (C9_mounted_threeway { exampleState with mountPoint := some "/mnt/cg" }).2.2.mpr
     ⟨"/mnt/cg", rfl, by decide⟩⟩

end cgroups2
